import Mathlib

/-!
Shallow embedding of the go-tasks library (package go_tasks).

Embedded sources:
* src/fixed_task_group.go : FixedTaskGroup without a done channel (watcher closes only errC).
* src/unnamed/part_002    : FixedTaskGroup variant with a DoneC done channel
  (watcher body is `defer close(tg.errC); defer close(tg.doneC); tg.wg.Wait()`;
  deferred calls run in LIFO order, so after Wait returns the watcher first
  closes doneC and only then closes errC).
* src/unnamed/part_003    : the Task type and the ErrTaskCancelled sentinel.

Modelling choices:
* A Go error value is `GoError`; the sentinel `ErrTaskCancelled` created by
  `errors.New("task cancelled")` is the distinguished constructor
  `GoError.errTaskCancelled`, all other errors are `GoError.custom i`
  (Go errors compare by identity, so distinct `errors.New` values are distinct
  constructors or distinct ids).
* A Task is a Go function `func(cancelC <-chan struct{}) error`; the coordinator
  observes nothing of a task except the error value produced by its single
  invocation, so a task is modelled by that observable outcome `TaskOutcome`:
  `ok` (returns nil), `err e` (returns the non-nil error e), or `fault`
  (panics / faults instead of returning; the goroutine body aborts but its
  deferred `g.wg.Done()` still runs).
* A buffered Go channel is `Chan`: capacity, buffer contents in FIFO order, and
  a closed flag. `Chan.send` returns `none` when the send would block forever
  (buffer full, and in this library nothing ever receives on errC concurrently
  with producers in the worst case) or panic (channel closed); `none` therefore
  marks an execution the real program cannot complete.
* `sync.WaitGroup` is the natural-number counter `pending`; `wg.Add(1)` is `+1`
  and the deferred `wg.Done()` is `-1`.
* `sync.Once` plus the cancel channel is the pair of flags
  `cancelOnceDone` (the Once has fired) and `cancelClosed` (cancelC is closed).
  `close` of an already-closed channel panics, modelled as `none`.
* Goroutine interleaving: each task execution's observable effect on the
  coordinator (one optional send on errC, one wg.Done) is applied atomically;
  a run of the whole group is a fold over the list of task outcomes in the
  order the scheduler lets the executions finish, i.e. over an arbitrary
  permutation of the supplied tasks. The watcher goroutine is started after
  the construction loop, so it is modelled as steps enabled only once
  `pending = 0`.
-/

/-- Go error values, compared by identity as in Go. -/
inductive GoError where
  | errTaskCancelled : GoError
  | custom : Nat → GoError
deriving DecidableEq, Repr

/-- ErrTaskCancelled from src/unnamed/part_003: the optional sentinel a task may
return to self-report cancellation-induced termination. -/
def ErrTaskCancelled : GoError := GoError.errTaskCancelled

/-- Observable outcome of one invocation of a Task
(`func(cancelC <-chan struct{}) error`): return nil, return a non-nil error,
or abort by a fault (panic) without returning a value. -/
inductive TaskOutcome where
  | ok : TaskOutcome
  | err : GoError → TaskOutcome
  | fault : TaskOutcome
deriving DecidableEq, Repr

/-- The error a task contributes: `some e` when it returns the non-nil error e,
`none` when it returns nil or faults. -/
def errOf : TaskOutcome → Option GoError
  | TaskOutcome.err e => some e
  | _ => none

/-- A buffered Go channel: capacity fixed by `make(chan T, cap)`, FIFO buffer,
closed flag. -/
structure Chan (α : Type) where
  cap : Nat
  buf : List α
  closed : Bool
deriving DecidableEq, Repr

/-- make(chan α, n): empty buffer of capacity n, not closed. -/
def Chan.make (α : Type) (n : Nat) : Chan α :=
  { cap := n, buf := [], closed := false }

/-- Send on a buffered channel with no receiver: succeeds immediately when the
buffer has room; `none` when the channel is closed (panic) or the buffer is
full (the send blocks). -/
def Chan.send {α : Type} (c : Chan α) (a : α) : Option (Chan α) :=
  if c.closed then none
  else if c.buf.length < c.cap then
    some { cap := c.cap, buf := c.buf ++ [a], closed := false }
  else none

/-- close(c): marks the channel closed; closing an already-closed channel
panics (`none`). -/
def Chan.close {α : Type} (c : Chan α) : Option (Chan α) :=
  if c.closed then none else some { cap := c.cap, buf := c.buf, closed := true }

/-- FixedTaskGroup of src/fixed_task_group.go. `started` is the ghost record of
the goroutines spawned by startTask, one entry per spawn, in spawn order; the
remaining fields are the struct fields (`wg` is its counter `pending`, the
channels carry their closed state, `cancelOnce` is `cancelOnceDone`). -/
structure FixedTaskGroup where
  tasks : List TaskOutcome
  pending : Nat
  errC : Chan GoError
  cancelClosed : Bool
  cancelOnceDone : Bool
  started : List TaskOutcome
deriving DecidableEq, Repr

/-- startTask of src/fixed_task_group.go: `g.tasks = append(g.tasks, task)`,
`g.wg.Add(1)`, and the spawn of one goroutine running the task (recorded in
`started`; the goroutine body itself is `finishTask`). -/
def FixedTaskGroup.startTask (g : FixedTaskGroup) (task : TaskOutcome) : FixedTaskGroup :=
  { g with
      tasks := g.tasks ++ [task]
      pending := g.pending + 1
      started := g.started ++ [task] }

/-- NewFixedTaskGroup of src/fixed_task_group.go: builds the struct with
`tasks: tasks`, a zero wait group, `errC: make(chan error, len(tasks))`, an
open cancelC and a fresh Once, then calls startTask for each task in order.
The watcher goroutine is started afterwards and is modelled by `watcher`. -/
def NewFixedTaskGroup (tasks : List TaskOutcome) : FixedTaskGroup :=
  List.foldl FixedTaskGroup.startTask
    { tasks := tasks
      pending := 0
      errC := Chan.make GoError tasks.length
      cancelClosed := false
      cancelOnceDone := false
      started := [] } tasks

/-- Body of the goroutine spawned by startTask, applied when the task function
finishes with outcome o: `if err := task(g.cancelC); err != nil { g.errC <- err }`
followed by the deferred `g.wg.Done()`, which runs on the nil-return path, the
error path, and the fault (panic) path alike. `none` only when the send on
errC cannot complete (buffer full or channel closed), in which case the
deferred Done never runs either. -/
def FixedTaskGroup.finishTask (g : FixedTaskGroup) (o : TaskOutcome) : Option FixedTaskGroup :=
  match o with
  | TaskOutcome.ok => some { g with pending := g.pending - 1 }
  | TaskOutcome.fault => some { g with pending := g.pending - 1 }
  | TaskOutcome.err e =>
    match Chan.send g.errC e with
    | none => none
    | some c => some { g with errC := c, pending := g.pending - 1 }

/-- Runs the spawned task executions to completion in the order `os` chosen by
the scheduler; `none` if some execution gets stuck on its errC send. -/
def FixedTaskGroup.runTasks : FixedTaskGroup → List TaskOutcome → Option FixedTaskGroup
  | g, [] => some g
  | g, o :: os =>
    match FixedTaskGroup.finishTask g o with
    | none => none
    | some g1 => FixedTaskGroup.runTasks g1 os

/-- Watcher goroutine of src/fixed_task_group.go:
`tg.wg.Wait(); defer close(tg.errC)` — enabled only once pending reaches 0,
then closes errC. -/
def FixedTaskGroup.watcher (g : FixedTaskGroup) : Option FixedTaskGroup :=
  if g.pending = 0 then
    match Chan.close g.errC with
    | none => none
    | some c => some { g with errC := c }
  else none

/-- Cancel of src/fixed_task_group.go:
`g.cancelOnce.Do(func() { close(g.cancelC) })`. The Once runs the closure only
on its first firing; `close` of an already-closed cancelC would panic (`none`),
which the Once guard makes unreachable from the initial state. -/
def FixedTaskGroup.Cancel (g : FixedTaskGroup) : Option FixedTaskGroup :=
  if g.cancelOnceDone then some g
  else if g.cancelClosed then none
  else some { g with cancelClosed := true, cancelOnceDone := true }

/-- n successive calls of Cancel (concurrent callers serialize on the mutex
inside sync.Once, so any concurrent pattern of calls is some sequence). -/
def FixedTaskGroup.cancelN : Nat → FixedTaskGroup → Option FixedTaskGroup
  | 0, g => some g
  | Nat.succ n, g =>
    match FixedTaskGroup.Cancel g with
    | none => none
    | some g1 => FixedTaskGroup.cancelN n g1

/-- ErrC accessor of src/fixed_task_group.go: always returns the same channel. -/
def FixedTaskGroup.ErrC (g : FixedTaskGroup) : Chan GoError := g.errC

/-- FixedTaskGroup variant of src/unnamed/part_002: identical to the other
variant plus the `doneC chan struct{}` field, carried as its closed flag. -/
structure FixedTaskGroupD where
  tasks : List TaskOutcome
  pending : Nat
  doneClosed : Bool
  errC : Chan GoError
  cancelClosed : Bool
  cancelOnceDone : Bool
  started : List TaskOutcome
deriving DecidableEq, Repr

/-- startTask of src/unnamed/part_002, textually identical to the other
variant: append to g.tasks, wg.Add(1), spawn one goroutine. -/
def FixedTaskGroupD.startTask (g : FixedTaskGroupD) (task : TaskOutcome) : FixedTaskGroupD :=
  { g with
      tasks := g.tasks ++ [task]
      pending := g.pending + 1
      started := g.started ++ [task] }

/-- NewFixedTaskGroup of src/unnamed/part_002: same construction plus
`doneC: make(chan struct{})`. -/
def NewFixedTaskGroupD (tasks : List TaskOutcome) : FixedTaskGroupD :=
  List.foldl FixedTaskGroupD.startTask
    { tasks := tasks
      pending := 0
      doneClosed := false
      errC := Chan.make GoError tasks.length
      cancelClosed := false
      cancelOnceDone := false
      started := [] } tasks

/-- Goroutine body of startTask in src/unnamed/part_002, textually identical to
the other variant. -/
def FixedTaskGroupD.finishTask (g : FixedTaskGroupD) (o : TaskOutcome) : Option FixedTaskGroupD :=
  match o with
  | TaskOutcome.ok => some { g with pending := g.pending - 1 }
  | TaskOutcome.fault => some { g with pending := g.pending - 1 }
  | TaskOutcome.err e =>
    match Chan.send g.errC e with
    | none => none
    | some c => some { g with errC := c, pending := g.pending - 1 }

/-- Scheduler-ordered run of the task executions, as in the other variant. -/
def FixedTaskGroupD.runTasks : FixedTaskGroupD → List TaskOutcome → Option FixedTaskGroupD
  | g, [] => some g
  | g, o :: os =>
    match FixedTaskGroupD.finishTask g o with
    | none => none
    | some g1 => FixedTaskGroupD.runTasks g1 os

/-- First visible step of the part_002 watcher after `tg.wg.Wait()` returns:
the deferred calls were registered as `defer close(tg.errC)` then
`defer close(tg.doneC)`, and deferred calls run in LIFO order, so the call
that runs first is `close(tg.doneC)`. Enabled only once pending reaches 0.
The watcher runs exactly once per group, so doneC is not yet closed here. -/
def FixedTaskGroupD.watcherCloseDone (g : FixedTaskGroupD) : Option FixedTaskGroupD :=
  if g.pending = 0 then some { g with doneClosed := true } else none

/-- Second visible step of the part_002 watcher: the remaining deferred call
`close(tg.errC)` runs. -/
def FixedTaskGroupD.watcherCloseErr (g : FixedTaskGroupD) : Option FixedTaskGroupD :=
  match Chan.close g.errC with
  | none => none
  | some c => some { g with errC := c }

/-- The complete part_002 watcher: wait for pending = 0, close doneC, close
errC, in that (LIFO defer) order. -/
def FixedTaskGroupD.watcherRun (g : FixedTaskGroupD) : Option FixedTaskGroupD :=
  match FixedTaskGroupD.watcherCloseDone g with
  | none => none
  | some g1 => FixedTaskGroupD.watcherCloseErr g1

/-- Cancel of src/unnamed/part_002, textually identical to the other variant. -/
def FixedTaskGroupD.Cancel (g : FixedTaskGroupD) : Option FixedTaskGroupD :=
  if g.cancelOnceDone then some g
  else if g.cancelClosed then none
  else some { g with cancelClosed := true, cancelOnceDone := true }

/-- ErrC accessor of src/unnamed/part_002: always returns the same channel. -/
def FixedTaskGroupD.ErrC (g : FixedTaskGroupD) : Chan GoError := g.errC

/-- DoneC accessor of src/unnamed/part_002: returns the done channel, carried
here as its closed flag. -/
def FixedTaskGroupD.DoneC (g : FixedTaskGroupD) : Bool := g.doneClosed

/-- Projection of the part_002 variant onto the shared surface of the
src/fixed_task_group.go variant: forget the done channel. -/
def projD (g : FixedTaskGroupD) : FixedTaskGroup :=
  { tasks := g.tasks
    pending := g.pending
    errC := g.errC
    cancelClosed := g.cancelClosed
    cancelOnceDone := g.cancelOnceDone
    started := g.started }

theorem foldl_startTask (ts : List TaskOutcome) (g : FixedTaskGroup) :
    List.foldl FixedTaskGroup.startTask g ts =
      { tasks := g.tasks ++ ts
        pending := g.pending + ts.length
        errC := g.errC
        cancelClosed := g.cancelClosed
        cancelOnceDone := g.cancelOnceDone
        started := g.started ++ ts } := by
  induction ts generalizing g with
  | nil => simp
  | cons t ts ih =>
    obtain ⟨t1, p1, e1, c1, o1, s1⟩ := g
    simp [FixedTaskGroup.startTask, ih]
    omega

theorem NewFixedTaskGroup_eq (ts : List TaskOutcome) :
    NewFixedTaskGroup ts =
      { tasks := ts ++ ts
        pending := ts.length
        errC := { cap := ts.length, buf := [], closed := false }
        cancelClosed := false
        cancelOnceDone := false
        started := ts } := by
  simp [NewFixedTaskGroup, foldl_startTask, Chan.make]

theorem foldl_startTaskD (ts : List TaskOutcome) (g : FixedTaskGroupD) :
    List.foldl FixedTaskGroupD.startTask g ts =
      { tasks := g.tasks ++ ts
        pending := g.pending + ts.length
        doneClosed := g.doneClosed
        errC := g.errC
        cancelClosed := g.cancelClosed
        cancelOnceDone := g.cancelOnceDone
        started := g.started ++ ts } := by
  induction ts generalizing g with
  | nil => simp
  | cons t ts ih =>
    obtain ⟨t1, p1, d1, e1, c1, o1, s1⟩ := g
    simp [FixedTaskGroupD.startTask, ih]
    omega

theorem NewFixedTaskGroupD_eq (ts : List TaskOutcome) :
    NewFixedTaskGroupD ts =
      { tasks := ts ++ ts
        pending := ts.length
        doneClosed := false
        errC := { cap := ts.length, buf := [], closed := false }
        cancelClosed := false
        cancelOnceDone := false
        started := ts } := by
  simp [NewFixedTaskGroupD, foldl_startTaskD, Chan.make]

theorem runTasks_spec (os : List TaskOutcome) (g : FixedTaskGroup)
    (hclosed : g.errC.closed = false)
    (hroom : g.errC.buf.length + os.length ≤ g.errC.cap) :
    ∃ g1, FixedTaskGroup.runTasks g os = some g1 ∧
      g1.errC.cap = g.errC.cap ∧
      g1.errC.buf = g.errC.buf ++ os.filterMap errOf ∧
      g1.errC.closed = false ∧
      g1.pending = g.pending - os.length ∧
      g1.tasks = g.tasks ∧ g1.started = g.started ∧
      g1.cancelClosed = g.cancelClosed ∧ g1.cancelOnceDone = g.cancelOnceDone := by
  induction os generalizing g with
  | nil =>
    exact ⟨g, rfl, rfl, by simp, hclosed, by simp, rfl, rfl, rfl, rfl⟩
  | cons o os ih =>
    cases o with
    | ok =>
      obtain ⟨g1, h1, h2, h3, h4, h5, h6, h7, h8, h9⟩ :=
        ih { g with pending := g.pending - 1 } hclosed (by simp at hroom ⊢; omega)
      refine ⟨g1, ?_, by simpa using h2, by simpa [errOf] using h3, h4, ?_, h6, h7, h8, h9⟩
      · simp [FixedTaskGroup.runTasks, FixedTaskGroup.finishTask, h1]
      · simp at h5 ⊢; omega
    | fault =>
      obtain ⟨g1, h1, h2, h3, h4, h5, h6, h7, h8, h9⟩ :=
        ih { g with pending := g.pending - 1 } hclosed (by simp at hroom ⊢; omega)
      refine ⟨g1, ?_, by simpa using h2, by simpa [errOf] using h3, h4, ?_, h6, h7, h8, h9⟩
      · simp [FixedTaskGroup.runTasks, FixedTaskGroup.finishTask, h1]
      · simp at h5 ⊢; omega
    | err e =>
      have hlt : g.errC.buf.length < g.errC.cap := by simp at hroom; omega
      obtain ⟨g1, h1, h2, h3, h4, h5, h6, h7, h8, h9⟩ :=
        ih { g with
              errC := { cap := g.errC.cap, buf := g.errC.buf ++ [e], closed := false }
              pending := g.pending - 1 }
          rfl (by simp at hroom ⊢; omega)
      refine ⟨g1, ?_, by simpa using h2, ?_, h4, ?_, h6, h7, h8, h9⟩
      · simp [FixedTaskGroup.runTasks, FixedTaskGroup.finishTask, Chan.send, hclosed, hlt, h1]
      · simp [errOf] at h3 ⊢
        simpa using h3
      · simp at h5 ⊢; omega

theorem cancelN_fixed (n : Nat) (g : FixedTaskGroup)
    (h : FixedTaskGroup.Cancel g = some g) :
    FixedTaskGroup.cancelN n g = some g := by
  induction n with
  | zero => rfl
  | succ n ih => simp [FixedTaskGroup.cancelN, h, ih]

/-- Claim C2: the error channel is allocated with capacity exactly N and, each
task execution sending at most one error, a send onto it never blocks, for
every scheduler-chosen completion order and with no consumer reading at all. -/
theorem errC_capacity_and_send_never_blocks (ts os : List TaskOutcome)
    (h : os.Perm ts) :
    (NewFixedTaskGroup ts).errC.cap = ts.length ∧
    (FixedTaskGroup.runTasks (NewFixedTaskGroup ts) os).isSome = true := by
  have hg := NewFixedTaskGroup_eq ts
  obtain ⟨g1, h1, _⟩ :=
    runTasks_spec os (NewFixedTaskGroup ts) (by rw [hg]) (by rw [hg]; simp [h.length_eq])
  exact ⟨by rw [hg], by rw [h1]; rfl⟩

theorem errC_capacity_and_send_never_blocks_witness :
    (NewFixedTaskGroup [TaskOutcome.err (GoError.custom 0), TaskOutcome.ok]).errC.cap =
      [TaskOutcome.err (GoError.custom 0), TaskOutcome.ok].length ∧
    (FixedTaskGroup.runTasks
        (NewFixedTaskGroup [TaskOutcome.err (GoError.custom 0), TaskOutcome.ok])
        [TaskOutcome.ok, TaskOutcome.err (GoError.custom 0)]).isSome = true :=
  errC_capacity_and_send_never_blocks
    [TaskOutcome.err (GoError.custom 0), TaskOutcome.ok]
    [TaskOutcome.ok, TaskOutcome.err (GoError.custom 0)] (by decide)

/-- Claim C5: for every completion order the scheduler can choose, the multiset
of values sent on the error channel equals the multiset of non-nil errors
returned by the tasks (each task contributes at most its own returned error,
unmodified; nil contributes nothing), and closure of the channel follows once
all tasks have finished, preserving the delivered values. -/
theorem error_multiset_matches_tasks (ts os : List TaskOutcome) (h : os.Perm ts) :
    ∃ g1 g2, FixedTaskGroup.runTasks (NewFixedTaskGroup ts) os = some g1 ∧
      g1.errC.buf.Perm (ts.filterMap errOf) ∧
      g1.errC.closed = false ∧
      g1.pending = 0 ∧
      FixedTaskGroup.watcher g1 = some g2 ∧
      g2.errC.closed = true ∧
      g2.errC.buf = g1.errC.buf := by
  have hg := NewFixedTaskGroup_eq ts
  obtain ⟨g1, h1, hcap, hbuf, hcl, hpend, _, _, _, _⟩ :=
    runTasks_spec os (NewFixedTaskGroup ts) (by rw [hg]) (by rw [hg]; simp [h.length_eq])
  have hbuf2 : g1.errC.buf = os.filterMap errOf := by rw [hbuf, hg]; rfl
  have hp0 : g1.pending = 0 := by rw [hpend, hg]; simp [h.length_eq]
  refine ⟨g1,
    { g1 with errC := { cap := g1.errC.cap, buf := g1.errC.buf, closed := true } },
    h1, ?_, hcl, hp0, ?_, rfl, rfl⟩
  · rw [hbuf2]; exact h.filterMap errOf
  · simp [FixedTaskGroup.watcher, hp0, Chan.close, hcl]

theorem error_multiset_matches_tasks_witness :
    ∃ g1 g2, FixedTaskGroup.runTasks
        (NewFixedTaskGroup
          [TaskOutcome.err (GoError.custom 1), TaskOutcome.err (GoError.custom 2), TaskOutcome.ok])
        [TaskOutcome.ok, TaskOutcome.err (GoError.custom 2), TaskOutcome.err (GoError.custom 1)] =
        some g1 ∧
      g1.errC.buf.Perm
        ([TaskOutcome.err (GoError.custom 1), TaskOutcome.err (GoError.custom 2),
          TaskOutcome.ok].filterMap errOf) ∧
      g1.errC.closed = false ∧
      g1.pending = 0 ∧
      FixedTaskGroup.watcher g1 = some g2 ∧
      g2.errC.closed = true ∧
      g2.errC.buf = g1.errC.buf :=
  error_multiset_matches_tasks
    [TaskOutcome.err (GoError.custom 1), TaskOutcome.err (GoError.custom 2), TaskOutcome.ok]
    [TaskOutcome.ok, TaskOutcome.err (GoError.custom 2), TaskOutcome.err (GoError.custom 1)]
    (by decide)

/-- Claim C3: for every outcome of the task body, nil return, non-nil error, or
fault, the goroutine's deferred wg.Done decrements the pending count exactly
once; no outcome skips the decrement (the hypotheses say the errC send can
complete, which holds in every reachable state by the capacity argument). -/
theorem pending_decrement_every_path (g : FixedTaskGroup) (o : TaskOutcome)
    (hclosed : g.errC.closed = false) (hroom : g.errC.buf.length < g.errC.cap)
    (hpos : 0 < g.pending) :
    ∃ g1, FixedTaskGroup.finishTask g o = some g1 ∧ g1.pending + 1 = g.pending := by
  cases o with
  | ok => exact ⟨_, rfl, by simp; omega⟩
  | fault => exact ⟨_, rfl, by simp; omega⟩
  | err e =>
    refine ⟨{ g with
        errC := { cap := g.errC.cap, buf := g.errC.buf ++ [e], closed := false }
        pending := g.pending - 1 }, ?_, by simp; omega⟩
    simp [FixedTaskGroup.finishTask, Chan.send, hclosed, hroom]

theorem pending_decrement_every_path_witness :
    ∃ g1, FixedTaskGroup.finishTask
        { tasks := [], pending := 1, errC := { cap := 1, buf := [], closed := false },
          cancelClosed := false, cancelOnceDone := false, started := [] }
        TaskOutcome.fault = some g1 ∧ g1.pending + 1 = 1 :=
  pending_decrement_every_path
    { tasks := [], pending := 1, errC := { cap := 1, buf := [], closed := false },
      cancelClosed := false, cancelOnceDone := false, started := [] }
    TaskOutcome.fault (by decide) (by decide) (by decide)

/-- Claim C4: Cancel is idempotent and safe under arbitrary repetition: from
any state where the Once flag agrees with the cancel-channel state (true of
every reachable state, both start false and only Cancel touches them), one
call succeeds without panicking, the cancel channel ends closed, n calls for
any n at least 1 produce exactly the state of one call, a repeated call is a
no-op fixed point, and no other field of the group is touched. Concurrent
callers serialize inside sync.Once, so every concurrent pattern of calls is
one of these call sequences. -/
theorem Cancel_idempotent (g : FixedTaskGroup) (n : Nat)
    (h : g.cancelClosed = g.cancelOnceDone) (hn : 1 ≤ n) :
    ∃ g1, FixedTaskGroup.Cancel g = some g1 ∧
      FixedTaskGroup.cancelN n g = some g1 ∧
      g1.cancelClosed = true ∧ g1.cancelOnceDone = true ∧
      FixedTaskGroup.Cancel g1 = some g1 ∧
      g1.tasks = g.tasks ∧ g1.pending = g.pending ∧ g1.errC = g.errC ∧
      g1.started = g.started := by
  obtain ⟨m, rfl⟩ : ∃ m, n = m + 1 := ⟨n - 1, by omega⟩
  cases hd : g.cancelOnceDone with
  | true =>
    have hc : g.cancelClosed = true := by rw [h, hd]
    have hcan : FixedTaskGroup.Cancel g = some g := by
      simp [FixedTaskGroup.Cancel, hd]
    exact ⟨g, hcan, by simp [FixedTaskGroup.cancelN, hcan, cancelN_fixed m g hcan],
      hc, hd, hcan, rfl, rfl, rfl, rfl⟩
  | false =>
    have hc : g.cancelClosed = false := by rw [h, hd]
    have hcan : FixedTaskGroup.Cancel g =
        some { g with cancelClosed := true, cancelOnceDone := true } := by
      simp [FixedTaskGroup.Cancel, hd, hc]
    have hfix : FixedTaskGroup.Cancel
          { g with cancelClosed := true, cancelOnceDone := true } =
        some { g with cancelClosed := true, cancelOnceDone := true } := by
      simp [FixedTaskGroup.Cancel]
    exact ⟨_, hcan, by simp [FixedTaskGroup.cancelN, hcan, cancelN_fixed m _ hfix],
      rfl, rfl, hfix, rfl, rfl, rfl, rfl⟩

theorem Cancel_idempotent_witness :
    ∃ g1, FixedTaskGroup.Cancel
        { tasks := [], pending := 0, errC := { cap := 0, buf := [], closed := false },
          cancelClosed := false, cancelOnceDone := false, started := [] } = some g1 ∧
      FixedTaskGroup.cancelN 3
        { tasks := [], pending := 0, errC := { cap := 0, buf := [], closed := false },
          cancelClosed := false, cancelOnceDone := false, started := [] } = some g1 ∧
      g1.cancelClosed = true ∧ g1.cancelOnceDone = true ∧
      FixedTaskGroup.Cancel g1 = some g1 ∧
      g1.tasks = [] ∧ g1.pending = 0 ∧
      g1.errC = { cap := 0, buf := [], closed := false } ∧
      g1.started = [] :=
  Cancel_idempotent
    { tasks := [], pending := 0, errC := { cap := 0, buf := [], closed := false },
      cancelClosed := false, cancelOnceDone := false, started := [] }
    3 (by decide) (by decide)

/-- Claim C8: the routing of a non-nil error is uniform in the error value:
for every error e, sentinel or not, finishing a task that returned e performs
exactly one push of e itself onto the error channel and one decrement of the
pending count, and changes nothing else; the equation holds for arbitrary e
with no case distinction on the ErrTaskCancelled sentinel anywhere. -/
theorem error_routing_uniform (g : FixedTaskGroup) (e : GoError)
    (hclosed : g.errC.closed = false) (hroom : g.errC.buf.length < g.errC.cap) :
    FixedTaskGroup.finishTask g (TaskOutcome.err e) =
      some { g with
        errC := { cap := g.errC.cap, buf := g.errC.buf ++ [e], closed := false }
        pending := g.pending - 1 } := by
  simp [FixedTaskGroup.finishTask, Chan.send, hclosed, hroom]

theorem error_routing_uniform_witness :
    FixedTaskGroup.finishTask
        { tasks := [], pending := 1, errC := { cap := 2, buf := [], closed := false },
          cancelClosed := false, cancelOnceDone := false, started := [] }
        (TaskOutcome.err ErrTaskCancelled) =
      some { tasks := [], pending := 0,
             errC := { cap := 2, buf := [ErrTaskCancelled], closed := false },
             cancelClosed := false, cancelOnceDone := false, started := [] } ∧
    FixedTaskGroup.finishTask
        { tasks := [], pending := 1, errC := { cap := 2, buf := [], closed := false },
          cancelClosed := false, cancelOnceDone := false, started := [] }
        (TaskOutcome.err (GoError.custom 7)) =
      some { tasks := [], pending := 0,
             errC := { cap := 2, buf := [GoError.custom 7], closed := false },
             cancelClosed := false, cancelOnceDone := false, started := [] } :=
  ⟨error_routing_uniform
      { tasks := [], pending := 1, errC := { cap := 2, buf := [], closed := false },
        cancelClosed := false, cancelOnceDone := false, started := [] }
      ErrTaskCancelled (by decide) (by decide),
   error_routing_uniform
      { tasks := [], pending := 1, errC := { cap := 2, buf := [], closed := false },
        cancelClosed := false, cancelOnceDone := false, started := [] }
      (GoError.custom 7) (by decide) (by decide)⟩

/-- Claim C9: every supplied Task value is started exactly once, one goroutine
per entry of the argument list in order (duplicates counted separately), even
though the tasks field ends up holding each supplied value twice, once from
the constructor assignment and once from the append in startTask. -/
theorem tasks_invoked_once_despite_duplicate_append (ts : List TaskOutcome) :
    (NewFixedTaskGroup ts).started = ts ∧
    (NewFixedTaskGroup ts).tasks = ts ++ ts := by
  rw [NewFixedTaskGroup_eq]
  exact ⟨rfl, rfl⟩

/-- Claim C6 is violated by the code: constructing a group from the one-element
task list leaves a tasks field of length 2 holding the supplied task twice
(the constructor stores the list and then startTask appends every task again),
where the claim and spec say the stored sequence has size N = 1. -/
theorem tasks_field_duplicated_after_construction :
    (NewFixedTaskGroup [TaskOutcome.ok]).tasks = [TaskOutcome.ok, TaskOutcome.ok] ∧
    (NewFixedTaskGroup [TaskOutcome.ok]).tasks.length = 2 := by
  constructor <;> rfl

/-- Claim C1 is violated by the code: in the part_002 variant the deferred
calls of the watcher run in LIFO order, so close(doneC) runs before
close(errC); with the empty task group, after the watcher's first deferred
call the done channel is already closed while the error channel is still
open, an interleaving in which the done signal is observable strictly before
the error channel closes. -/
theorem done_closes_before_errC :
    (FixedTaskGroupD.watcherCloseDone (NewFixedTaskGroupD [])).map
        (fun g => (g.doneClosed, g.errC.closed)) = some (true, false) := by
  decide

/-- Claim C7: construction cannot fail for any task list, the constructed
coordinator always has pending count, error-channel capacity equal to the task
count, a fresh open error channel and an unsignalled done channel; and for the
empty task list the watcher is immediately enabled and closes both channels
with zero errors observed. -/
theorem construction_never_fails_empty_ready :
    (∀ ts, (NewFixedTaskGroupD ts).pending = ts.length ∧
        (NewFixedTaskGroupD ts).errC = { cap := ts.length, buf := [], closed := false } ∧
        (NewFixedTaskGroupD ts).doneClosed = false) ∧
    (FixedTaskGroupD.watcherRun (NewFixedTaskGroupD [])).map
        (fun g => (g.errC.closed, g.errC.buf, g.doneClosed)) = some (true, [], true) := by
  constructor
  · intro ts
    rw [NewFixedTaskGroupD_eq]
    exact ⟨rfl, rfl, rfl⟩
  · decide

/-- Claim C10: the two FixedTaskGroup implementations agree on their shared
surface. Projecting the done channel away, construction produces the same
state (in particular the same error-channel capacity), every task completion
has the same effect (same delivered errors), Cancel has the same
first-call-closes / later-calls-no-op behavior, the watcher closes the error
channel under the same condition (pending count zero, that is all tasks
finished) with the same resulting channel, and ErrC returns the same channel. -/
theorem variants_observationally_equivalent :
    (∀ ts, projD (NewFixedTaskGroupD ts) = NewFixedTaskGroup ts) ∧
    (∀ g o, (FixedTaskGroupD.finishTask g o).map projD =
        FixedTaskGroup.finishTask (projD g) o) ∧
    (∀ g, (FixedTaskGroupD.Cancel g).map projD =
        FixedTaskGroup.Cancel (projD g)) ∧
    (∀ g, (FixedTaskGroupD.watcherRun g).map projD =
        FixedTaskGroup.watcher (projD g)) ∧
    (∀ g, FixedTaskGroupD.ErrC g = FixedTaskGroup.ErrC (projD g)) := by
  refine ⟨?_, ?_, ?_, ?_, ?_⟩
  · intro ts
    rw [NewFixedTaskGroupD_eq, NewFixedTaskGroup_eq]
    rfl
  · intro g o
    cases o with
    | ok => rfl
    | fault => rfl
    | err e =>
      simp only [FixedTaskGroupD.finishTask, FixedTaskGroup.finishTask, projD]
      cases hs : Chan.send g.errC e <;> simp [hs, projD]
  · intro g
    simp only [FixedTaskGroupD.Cancel, FixedTaskGroup.Cancel, projD]
    cases hd : g.cancelOnceDone <;> cases hc : g.cancelClosed <;> simp [hd, hc, projD]
  · intro g
    by_cases hp : g.pending = 0
    · by_cases hc : g.errC.closed = true
      · simp [FixedTaskGroupD.watcherRun, FixedTaskGroupD.watcherCloseDone,
          FixedTaskGroupD.watcherCloseErr, FixedTaskGroup.watcher, projD,
          Chan.close, hp, hc]
      · simp [FixedTaskGroupD.watcherRun, FixedTaskGroupD.watcherCloseDone,
          FixedTaskGroupD.watcherCloseErr, FixedTaskGroup.watcher, projD,
          Chan.close, hp, hc]
    · simp [FixedTaskGroupD.watcherRun, FixedTaskGroupD.watcherCloseDone,
        FixedTaskGroup.watcher, projD, hp]
  · intro g
    rfl
